import Mathlib

/-!
Shallow embedding of the go-pkgz/ctrl repository.

Coordinator side (`GracefulShutdown` and its functional options): the
configuration struct mirrors `shutdownConfig`; the watcher goroutine is
embedded as a deterministic step machine over an explicit schedule of
external events (signal deliveries, the expiry of the `time.After` timer
armed for the force-exit race, the manual cancel call, and a dependent
shutdown-watcher observing the token).  Every side effect of the Go code
(log lines, the `onShutdown` and `onForceExit` callbacks, the token
transition, `osExit`) is recorded as an event in a trace, in the order the
code performs them.  Callbacks and the logger are therefore represented by
their invocation events rather than by function fields.

Server side (`RunHTTPServerWithContext`): contexts are embedded as a
cancellation flag plus a remaining deadline budget, errors as an inductive
type with the distinguished `http.ErrServerClosed` value, and the two
goroutines by the value they place on the buffered completion channel and
the effects of the shutdown watcher.
-/

namespace Ctrl

/-! ## Signals and durations -/

/-- The signal `os.Interrupt` (SIGINT) as a plain signal number. -/
def osInterrupt : Nat := 2

/-- The signal `syscall.SIGTERM` as a plain signal number. -/
def sigTERM : Nat := 15

/-! ## shutdownConfig and the functional options (part_002, lines 130-188) -/

/-- The `shutdownConfig` struct of `GracefulShutdown`.  The callback,
logger and `osExit` fields of the Go struct are modelled by trace events
(the default callbacks are no-ops), so only the data fields remain. -/
structure shutdownConfig where
  signals : List Nat
  timeout : Int
  forceExit : Bool
  exitCode : Int
deriving Repr, DecidableEq

/-- A `ShutdownOption` is a mutator of the configuration, as in the source. -/
def ShutdownOption : Type := shutdownConfig → shutdownConfig

/-- The defaults set at the top of `GracefulShutdown`: interrupt and
SIGTERM, a 10 second timeout (in nanoseconds, as `time.Duration` counts),
force exit enabled, exit code 1. -/
def defaultShutdownConfig : shutdownConfig :=
  { signals := [osInterrupt, sigTERM]
    timeout := 10000000000
    forceExit := true
    exitCode := 1 }

/-- Option `WithSignals` sets which signals trigger the shutdown. -/
def WithSignals (signals : List Nat) : ShutdownOption :=
  fun c => { c with signals := signals }

/-- Option `WithTimeout` sets the maximum time to wait for graceful shutdown. -/
def WithTimeout (timeout : Int) : ShutdownOption :=
  fun c => { c with timeout := timeout }

/-- Option `WithoutForceExit` disables the forced exit after timeout. -/
def WithoutForceExit : ShutdownOption :=
  fun c => { c with forceExit := false }

/-- Option `WithExitCode` sets the exit code used for forced exits. -/
def WithExitCode (code : Int) : ShutdownOption :=
  fun c => { c with exitCode := code }

/-- The option-application loop of `GracefulShutdown`:
`for _, opt := range opts { opt(&config) }`. -/
def applyOptions (opts : List ShutdownOption) : shutdownConfig :=
  opts.foldl (fun c opt => opt c) defaultShutdownConfig

/-! ## The watcher goroutine of GracefulShutdown (part_002, lines 97-124) -/

/-- Observable effects of the coordinator and of a dependent
shutdown-watcher, in the order the Go code performs them. -/
inductive Event where
  /-- the `received signal, shutting down...` warning -/
  | logReceivedSignal (sig : Nat)
  /-- invocation of the `onShutdown` callback with the signal -/
  | onShutdown (sig : Nat)
  /-- the token transition: the moment `cancel()` first takes effect -/
  | cancelToken
  /-- the `forced exit after timeout` warning -/
  | logForcedTimeout
  /-- the `received second signal, forcing exit` warning -/
  | logSecondSignal (sig : Nat)
  /-- invocation of the `onForceExit` callback -/
  | onForceExit
  /-- invocation of `config.osExit` with the exit code -/
  | osExit (code : Int)
  /-- a dependent shutdown-watcher begins its stop sequence -/
  | serverShutdownBegin
deriving Repr, DecidableEq

/-- Where the watcher goroutine is suspended.  `waitingFirst` is the
blocking receive `sig := <-sigChan`; `racing` is the `select` between
`time.After(config.timeout)` and a second receive; `done` is the plain
return taken when `forceExit` is false; `exited` means `osExit` ran. -/
inductive WatcherPhase where
  | waitingFirst
  | racing
  | done
  | exited
deriving Repr, DecidableEq

/-- State of the whole coordinator: the token (`cancelled`), the watcher
goroutine phase, whether a dependent shutdown-watcher already started its
stop sequence, and the trace of effects so far. -/
structure SysState where
  cancelled : Bool
  phase : WatcherPhase
  srvStopped : Bool
  trace : List Event
deriving Repr, DecidableEq

/-- The state right after `GracefulShutdown` returns: token active,
watcher blocked on the signal channel, nothing happened yet. -/
def initState : SysState :=
  { cancelled := false, phase := WatcherPhase.waitingFirst, srvStopped := false, trace := [] }

/-- External events the run can be driven by: the manual cancel function
returned by `GracefulShutdown`, delivery of an OS signal, expiry of the
`time.After` timer armed by the force-exit `select` (by definition this
event occurs `config.timeout` after the race was armed), and the
dependent shutdown-watcher waking up on the cancelled token. -/
inductive SysStep where
  | manualCancel
  | deliverSignal (sig : Nat)
  | timerFires
  | serverObserveCancel
deriving Repr, DecidableEq

/-- The token transition performed by `cancel()`: `context.WithCancel`
cancellation is idempotent, so the transition event is emitted only the
first time. -/
def cancelEvents (cancelled : Bool) : List Event :=
  if cancelled then [] else [Event.cancelToken]

/-- Effects of the first-signal branch of the watcher: the warning log,
the `onShutdown` callback, then `cancel()`. -/
def signalArrivalEvents (st : SysState) (sig : Nat) : List Event :=
  [Event.logReceivedSignal sig, Event.onShutdown sig] ++ cancelEvents st.cancelled

/-- Effects of either arm of the force-exit `select`: the arm-specific
warning, then `onForceExit()`, then `osExit(exitCode)`. -/
def forceExitEvents (c : shutdownConfig) (first : Event) : List Event :=
  [first, Event.onForceExit, Event.osExit c.exitCode]

/-- One step of the coordinator.  `manualCancel` only touches the token
(the goroutine never selects on the context, so it stays where it is).
A delivered signal reaches the channel only if it is in the configured
set (`signal.Notify`); the watcher consumes it while blocked at
`waitingFirst` or while `racing`.  After `osExit` the process is gone and
nothing further happens. -/
def sysStep (c : shutdownConfig) (st : SysState) (step : SysStep) : SysState :=
  match step with
  | SysStep.manualCancel =>
    match st.phase with
    | WatcherPhase.exited => st
    | _ => { st with cancelled := true, trace := st.trace ++ cancelEvents st.cancelled }
  | SysStep.deliverSignal sig =>
    if sig ∈ c.signals then
      match st.phase with
      | WatcherPhase.waitingFirst =>
        { st with
          cancelled := true
          phase := if c.forceExit then WatcherPhase.racing else WatcherPhase.done
          trace := st.trace ++ signalArrivalEvents st sig }
      | WatcherPhase.racing =>
        { st with
          phase := WatcherPhase.exited
          trace := st.trace ++ forceExitEvents c (Event.logSecondSignal sig) }
      | _ => st
    else st
  | SysStep.timerFires =>
    match st.phase with
    | WatcherPhase.racing =>
      { st with
        phase := WatcherPhase.exited
        trace := st.trace ++ forceExitEvents c Event.logForcedTimeout }
    | _ => st
  | SysStep.serverObserveCancel =>
    match st.phase with
    | WatcherPhase.exited => st
    | _ =>
      if st.cancelled = true ∧ st.srvStopped = false then
        { st with srvStopped := true, trace := st.trace ++ [Event.serverShutdownBegin] }
      else st

/-- Run the coordinator over a schedule of external events. -/
def sysRun (c : shutdownConfig) (steps : List SysStep) : SysState :=
  steps.foldl (sysStep c) initState

/-! ## Contexts, errors and RunHTTPServerWithContext (http_shutdown.go) -/

/-- A Go `context.Context` as the server code uses it: whether it is
already done (cancelled or expired) and the remaining time budget before
its deadline (`none` = no deadline). -/
structure Ctx where
  done : Bool
  budget : Option Int
deriving Repr, DecidableEq

/-- The context `context.Background()`: never done, no deadline. -/
def contextBackground : Ctx :=
  { done := false, budget := none }

/-- Derivation `context.WithTimeout(parent, d)`: done whenever the parent is, and
the deadline is the nearer of the parent deadline and `d` from now. -/
def contextWithTimeout (parent : Ctx) (d : Int) : Ctx :=
  { done := parent.done
    budget := some (match parent.budget with
      | none => d
      | some b => min b d) }

/-- Go error values the server code distinguishes: the sentinel
`http.ErrServerClosed` (intentional shutdown), `context.DeadlineExceeded`
(the drain did not finish in time), or any other failure.  `errors.Is`
against the sentinel is modelled as equality. -/
inductive GoError where
  | errServerClosed
  | deadlineExceeded
  | other (n : Nat)
deriving Repr, DecidableEq

/-- Struct `httpOptions`: the logger field is modelled by log events, leaving
the shutdown timeout. -/
structure httpOptions where
  shutdownTimeout : Int
deriving Repr, DecidableEq

/-- An `HTTPOption` is a mutator of `httpOptions`, as in the source. -/
def HTTPOption : Type := httpOptions → httpOptions

/-- Option `WithHTTPShutdownTimeout` sets the maximum time to wait for server
shutdown. -/
def WithHTTPShutdownTimeout (timeout : Int) : HTTPOption :=
  fun o => { o with shutdownTimeout := timeout }

/-- The defaults of `RunHTTPServerWithContext`: a 10 second timeout. -/
def defaultHTTPOptions : httpOptions :=
  { shutdownTimeout := 10000000000 }

/-- The option-application loop of the HTTP helpers. -/
def applyHTTPOptions (opts : List HTTPOption) : httpOptions :=
  opts.foldl (fun o opt => opt o) defaultHTTPOptions

/-- Log lines of the shutdown-watcher goroutine. -/
inductive HTTPLogEvent where
  /-- the `shutting down HTTP server` info line -/
  | infoShuttingDown
  /-- the `server shutdown error` line with the error from `Shutdown` -/
  | errorServerShutdown (e : GoError)
deriving Repr, DecidableEq

/-- The value the start goroutine places on `errCh`:
`if err != nil && !errors.Is(err, http.ErrServerClosed) { errCh <- err }
else { errCh <- nil }`. -/
def startTaskSend (err : Option GoError) : Option GoError :=
  if err ≠ none ∧ err ≠ some GoError.errServerClosed then err else none

/-- Outcome of `RunHTTPServerWithContext`: the full contents of the
completion channel (in order) and whether it was closed, the log lines,
and the context actually passed to `server.Shutdown` (`none` when the
shutdown-watcher never woke up because the input context never fired). -/
structure RunResult where
  errCh : List (Option GoError)
  errChClosed : Bool
  logs : List HTTPLogEvent
  shutdownCtxUsed : Option Ctx
deriving Repr, DecidableEq

/-- The call `RunHTTPServerWithContext ctx server startFn opts...`: here `startResult`
is what `startFn` returns once the listener terminates; `shutdownFn` is
`server.Shutdown` as a function of the context handed to it; `ctx.done`
records whether the input context ever fires (the shutdown-watcher
goroutine blocks on `<-ctx.Done()` and runs only then).  The start
goroutine sends its normalized outcome and closes the channel without
ever consulting the context; the shutdown-watcher logs, calls `Shutdown`
with a timeout context derived from `context.Background()`, and logs an
error from it without touching `errCh`. -/
def RunHTTPServerWithContext (ctx : Ctx) (startResult : Option GoError)
    (shutdownFn : Ctx → Option GoError) (opts : List HTTPOption) : RunResult :=
  let options := applyHTTPOptions opts
  let shutdownCtx := contextWithTimeout contextBackground options.shutdownTimeout
  { errCh := [startTaskSend startResult]
    errChClosed := true
    logs :=
      if ctx.done then
        HTTPLogEvent.infoShuttingDown ::
          (match shutdownFn shutdownCtx with
            | some e => [HTTPLogEvent.errorServerShutdown e]
            | none => [])
      else []
    shutdownCtxUsed := if ctx.done then some shutdownCtx else none }

/-! ## Derived predicates over traces -/

/-- Whether an event is an invocation of the terminator. -/
def isExitEvent : Event → Bool
  | Event.osExit _ => true
  | _ => false

/-- Every begin-of-stop-sequence of a dependent shutdown-watcher is
strictly preceded by the token transition. -/
def ServerAfterCancel (t : List Event) : Prop :=
  ∀ k : Nat, t[k]? = some Event.serverShutdownBegin →
    ∃ j : Nat, j < k ∧ t[j]? = some Event.cancelToken

/-- Every terminator invocation is immediately preceded by the
`onForceExit` callback. -/
def ExitAfterForce (t : List Event) : Prop :=
  ∀ (k : Nat) (code : Int), t[k]? = some (Event.osExit code) →
    ∃ j : Nat, k = j + 1 ∧ t[j]? = some Event.onForceExit

/-- Every `onShutdown` invocation is immediately followed by the token
transition, unless the token had already been cancelled earlier. -/
def ShutdownThenCancel (t : List Event) : Prop :=
  ∀ (i : Nat) (s : Nat), t[i]? = some (Event.onShutdown s) →
    t[i + 1]? = some Event.cancelToken ∨ ∃ j : Nat, j < i ∧ t[j]? = some Event.cancelToken

/-- The state invariant of the coordinator run: the token transition is
recorded exactly when `cancel` first took effect, terminator and
`onForceExit` invocations happen exactly on the way to `exited`, and with
force exit disabled the watcher only ever rests in `waitingFirst` or
`done`. -/
def CoordInv (c : shutdownConfig) (st : SysState) : Prop :=
  (st.cancelled = false → st.trace.count Event.cancelToken = 0 ∧ st.phase = WatcherPhase.waitingFirst)
  ∧ (st.cancelled = true → st.trace.count Event.cancelToken = 1)
  ∧ (st.phase ≠ WatcherPhase.exited →
      st.trace.countP isExitEvent = 0 ∧ st.trace.count Event.onForceExit = 0)
  ∧ (st.phase = WatcherPhase.exited →
      st.trace.countP isExitEvent = 1 ∧ st.trace.count Event.onForceExit = 1)
  ∧ (c.forceExit = false →
      st.phase = WatcherPhase.waitingFirst ∨ st.phase = WatcherPhase.done)

/-- The state invariant together with the three ordering properties of
the trace. -/
def TraceInv (c : shutdownConfig) (st : SysState) : Prop :=
  CoordInv c st ∧ ServerAfterCancel st.trace ∧ ExitAfterForce st.trace
    ∧ ShutdownThenCancel st.trace

/-! ## Sanity checks of the embedding on concrete runs -/

example :
    (sysRun (applyOptions []) [SysStep.deliverSignal 15, SysStep.timerFires]).trace
      = [Event.logReceivedSignal 15, Event.onShutdown 15, Event.cancelToken,
         Event.logForcedTimeout, Event.onForceExit, Event.osExit 1] := by decide

example :
    (sysRun (applyOptions [WithoutForceExit]) [SysStep.deliverSignal 2, SysStep.timerFires]).trace
      = [Event.logReceivedSignal 2, Event.onShutdown 2, Event.cancelToken] := by decide

example :
    (sysRun (applyOptions []) [SysStep.manualCancel, SysStep.deliverSignal 15, SysStep.timerFires]).trace
      = [Event.cancelToken, Event.logReceivedSignal 15, Event.onShutdown 15,
         Event.logForcedTimeout, Event.onForceExit, Event.osExit 1] := by decide

example :
    (RunHTTPServerWithContext { done := true, budget := some 0 } (some GoError.errServerClosed)
      (fun _ => some GoError.deadlineExceeded) []).errCh = [none] := by decide

example :
    (RunHTTPServerWithContext { done := false, budget := none } (some (GoError.other 7))
      (fun _ => none) []).errCh = [some (GoError.other 7)] := by decide

example :
    (RunHTTPServerWithContext { done := true, budget := some 0 } none
      (fun _ => none) [WithHTTPShutdownTimeout 5]).shutdownCtxUsed
      = some { done := false, budget := some 5 } := by decide

/-! ## List lookup helpers -/

theorem lt_length_of_lookup {α : Type} {l : List α} {n : Nat} {a : α}
    (h : l[n]? = some a) : n < l.length := by
  by_contra hn
  rw [List.getElem?_eq_none (Nat.le_of_not_lt hn)] at h
  exact Option.noConfusion h

theorem lookup_append_left {α : Type} {t b : List α} {j : Nat} {a : α}
    (h : t[j]? = some a) : (t ++ b)[j]? = some a := by
  rw [List.getElem?_append_left (lt_length_of_lookup h)]
  exact h

theorem lookup_append_right {α : Type} (t : List α) {b : List α} {j : Nat} {a : α}
    (h : b[j]? = some a) : (t ++ b)[t.length + j]? = some a := by
  rw [List.getElem?_append_right (Nat.le_add_right t.length j)]
  simpa using h

theorem exists_lookup_of_mem {α : Type} {l : List α} {a : α}
    (h : a ∈ l) : ∃ j, j < l.length ∧ l[j]? = some a := by
  obtain ⟨n, hn⟩ := List.mem_iff_getElem?.mp h
  exact ⟨n, lt_length_of_lookup hn, hn⟩

/-! ## The coordinator invariant -/

theorem foldl_inv {c : shutdownConfig} {P : SysState → Prop}
    (hstep : ∀ st step, P st → P (sysStep c st step)) :
    ∀ (steps : List SysStep) (st : SysState), P st → P (steps.foldl (sysStep c) st) := by
  intro steps
  induction steps with
  | nil => intro st h; exact h
  | cons hd tl ih => intro st h; exact ih _ (hstep st hd h)

theorem coordInv_init (c : shutdownConfig) : CoordInv c initState := by
  refine ⟨fun _ => ⟨rfl, rfl⟩, fun h => by simp [initState] at h, fun _ => ⟨rfl, rfl⟩, ?_, ?_⟩
  · intro h; simp [initState] at h
  · intro _; exact Or.inl rfl

theorem coordInv_step {c : shutdownConfig} {st : SysState} (step : SysStep)
    (h : CoordInv c st) : CoordInv c (sysStep c st step) := by
  obtain ⟨h1, h2, h3, h4, h5⟩ := h
  cases step with
  | manualCancel =>
    cases hp : st.phase with
    | exited => simp only [sysStep, hp]; exact ⟨h1, h2, h3, h4, h5⟩
    | waitingFirst =>
      simp only [sysStep, hp]
      refine ⟨?_, ?_, ?_, ?_, ?_⟩
      · intro hx; exact Bool.noConfusion hx
      · intro _
        show (st.trace ++ cancelEvents st.cancelled).count Event.cancelToken = 1
        cases hc : st.cancelled with
        | true => rw [List.count_append, h2 hc]; rfl
        | false => rw [List.count_append, (h1 hc).1]; rfl
      · intro _
        have hne : st.phase ≠ WatcherPhase.exited := by
          rw [hp]; intro q; exact WatcherPhase.noConfusion q
        obtain ⟨ha, hb⟩ := h3 hne
        refine ⟨?_, ?_⟩
        · show (st.trace ++ cancelEvents st.cancelled).countP isExitEvent = 0
          cases hc : st.cancelled <;> rw [List.countP_append, ha] <;> rfl
        · show (st.trace ++ cancelEvents st.cancelled).count Event.onForceExit = 0
          cases hc : st.cancelled <;> rw [List.count_append, hb] <;> rfl
      · intro he; exact WatcherPhase.noConfusion he
      · intro _; exact Or.inl rfl
    | racing =>
      cases hc : st.cancelled with
      | false => exact WatcherPhase.noConfusion (hp.symm.trans (h1 hc).2)
      | true =>
        simp only [sysStep, hp]
        refine ⟨?_, ?_, ?_, ?_, ?_⟩
        · intro hx; exact Bool.noConfusion hx
        · intro _
          show (st.trace ++ cancelEvents st.cancelled).count Event.cancelToken = 1
          rw [hc, List.count_append, h2 hc]; rfl
        · intro _
          have hne : st.phase ≠ WatcherPhase.exited := by
            rw [hp]; intro q; exact WatcherPhase.noConfusion q
          obtain ⟨ha, hb⟩ := h3 hne
          refine ⟨?_, ?_⟩
          · show (st.trace ++ cancelEvents st.cancelled).countP isExitEvent = 0
            rw [hc, List.countP_append, ha]; rfl
          · show (st.trace ++ cancelEvents st.cancelled).count Event.onForceExit = 0
            rw [hc, List.count_append, hb]; rfl
        · intro he; exact WatcherPhase.noConfusion he
        · intro hg
          rcases h5 hg with h' | h' <;> exact WatcherPhase.noConfusion (hp.symm.trans h')
    | done =>
      cases hc : st.cancelled with
      | false => exact WatcherPhase.noConfusion (hp.symm.trans (h1 hc).2)
      | true =>
        simp only [sysStep, hp]
        refine ⟨?_, ?_, ?_, ?_, ?_⟩
        · intro hx; exact Bool.noConfusion hx
        · intro _
          show (st.trace ++ cancelEvents st.cancelled).count Event.cancelToken = 1
          rw [hc, List.count_append, h2 hc]; rfl
        · intro _
          have hne : st.phase ≠ WatcherPhase.exited := by
            rw [hp]; intro q; exact WatcherPhase.noConfusion q
          obtain ⟨ha, hb⟩ := h3 hne
          refine ⟨?_, ?_⟩
          · show (st.trace ++ cancelEvents st.cancelled).countP isExitEvent = 0
            rw [hc, List.countP_append, ha]; rfl
          · show (st.trace ++ cancelEvents st.cancelled).count Event.onForceExit = 0
            rw [hc, List.count_append, hb]; rfl
        · intro he; exact WatcherPhase.noConfusion he
        · intro _; exact Or.inr rfl
  | deliverSignal sig =>
    by_cases hs : sig ∈ c.signals
    · cases hp : st.phase with
      | waitingFirst =>
        cases hf : c.forceExit with
        | true =>
          simp only [sysStep, hp, hs, if_true, hf]
          refine ⟨?_, ?_, ?_, ?_, ?_⟩
          · intro hx; exact Bool.noConfusion hx
          · intro _
            show (st.trace ++ ([Event.logReceivedSignal sig, Event.onShutdown sig]
              ++ cancelEvents st.cancelled)).count Event.cancelToken = 1
            cases hc : st.cancelled with
            | true => rw [List.count_append, h2 hc]; rfl
            | false => rw [List.count_append, (h1 hc).1]; rfl
          · intro _
            have hne : st.phase ≠ WatcherPhase.exited := by
              rw [hp]; intro q; exact WatcherPhase.noConfusion q
            obtain ⟨ha, hb⟩ := h3 hne
            refine ⟨?_, ?_⟩
            · show (st.trace ++ ([Event.logReceivedSignal sig, Event.onShutdown sig]
                ++ cancelEvents st.cancelled)).countP isExitEvent = 0
              cases hc : st.cancelled <;> rw [List.countP_append, ha] <;> rfl
            · show (st.trace ++ ([Event.logReceivedSignal sig, Event.onShutdown sig]
                ++ cancelEvents st.cancelled)).count Event.onForceExit = 0
              cases hc : st.cancelled <;> rw [List.count_append, hb] <;> rfl
          · intro he; exact WatcherPhase.noConfusion he
          · intro hg; rw [hg] at hf; exact Bool.noConfusion hf
        | false =>
          simp only [sysStep, hp, hs, if_true, hf]
          refine ⟨?_, ?_, ?_, ?_, ?_⟩
          · intro hx; exact Bool.noConfusion hx
          · intro _
            show (st.trace ++ ([Event.logReceivedSignal sig, Event.onShutdown sig]
              ++ cancelEvents st.cancelled)).count Event.cancelToken = 1
            cases hc : st.cancelled with
            | true => rw [List.count_append, h2 hc]; rfl
            | false => rw [List.count_append, (h1 hc).1]; rfl
          · intro _
            have hne : st.phase ≠ WatcherPhase.exited := by
              rw [hp]; intro q; exact WatcherPhase.noConfusion q
            obtain ⟨ha, hb⟩ := h3 hne
            refine ⟨?_, ?_⟩
            · show (st.trace ++ ([Event.logReceivedSignal sig, Event.onShutdown sig]
                ++ cancelEvents st.cancelled)).countP isExitEvent = 0
              cases hc : st.cancelled <;> rw [List.countP_append, ha] <;> rfl
            · show (st.trace ++ ([Event.logReceivedSignal sig, Event.onShutdown sig]
                ++ cancelEvents st.cancelled)).count Event.onForceExit = 0
              cases hc : st.cancelled <;> rw [List.count_append, hb] <;> rfl
          · intro he; exact WatcherPhase.noConfusion he
          · intro _; exact Or.inr rfl
      | racing =>
        cases hc : st.cancelled with
        | false => exact WatcherPhase.noConfusion (hp.symm.trans (h1 hc).2)
        | true =>
          simp only [sysStep, hp, hs, if_true]
          refine ⟨?_, ?_, ?_, ?_, ?_⟩
          · intro hx; exact Bool.noConfusion (hc.symm.trans hx)
          · intro _
            show (st.trace ++ forceExitEvents c (Event.logSecondSignal sig)).count
              Event.cancelToken = 1
            rw [List.count_append, h2 hc]; rfl
          · intro hne; exact absurd rfl hne
          · intro _
            have hne : st.phase ≠ WatcherPhase.exited := by
              rw [hp]; intro q; exact WatcherPhase.noConfusion q
            obtain ⟨ha, hb⟩ := h3 hne
            refine ⟨?_, ?_⟩
            · show (st.trace ++ forceExitEvents c (Event.logSecondSignal sig)).countP
                isExitEvent = 1
              rw [List.countP_append, ha]; rfl
            · show (st.trace ++ forceExitEvents c (Event.logSecondSignal sig)).count
                Event.onForceExit = 1
              rw [List.count_append, hb]; rfl
          · intro hg
            rcases h5 hg with h' | h' <;> exact WatcherPhase.noConfusion (hp.symm.trans h')
      | done => simp only [sysStep, hp, hs, if_true]; exact ⟨h1, h2, h3, h4, h5⟩
      | exited => simp only [sysStep, hp, hs, if_true]; exact ⟨h1, h2, h3, h4, h5⟩
    · simp only [sysStep, if_neg hs]; exact ⟨h1, h2, h3, h4, h5⟩
  | timerFires =>
    cases hp : st.phase with
    | racing =>
      cases hc : st.cancelled with
      | false => exact WatcherPhase.noConfusion (hp.symm.trans (h1 hc).2)
      | true =>
        simp only [sysStep, hp]
        refine ⟨?_, ?_, ?_, ?_, ?_⟩
        · intro hx; exact Bool.noConfusion (hc.symm.trans hx)
        · intro _
          show (st.trace ++ forceExitEvents c Event.logForcedTimeout).count
            Event.cancelToken = 1
          rw [List.count_append, h2 hc]; rfl
        · intro hne; exact absurd rfl hne
        · intro _
          have hne : st.phase ≠ WatcherPhase.exited := by
            rw [hp]; intro q; exact WatcherPhase.noConfusion q
          obtain ⟨ha, hb⟩ := h3 hne
          refine ⟨?_, ?_⟩
          · show (st.trace ++ forceExitEvents c Event.logForcedTimeout).countP
              isExitEvent = 1
            rw [List.countP_append, ha]; rfl
          · show (st.trace ++ forceExitEvents c Event.logForcedTimeout).count
              Event.onForceExit = 1
            rw [List.count_append, hb]; rfl
        · intro hg
          rcases h5 hg with h' | h' <;> exact WatcherPhase.noConfusion (hp.symm.trans h')
    | waitingFirst => simp only [sysStep, hp]; exact ⟨h1, h2, h3, h4, h5⟩
    | done => simp only [sysStep, hp]; exact ⟨h1, h2, h3, h4, h5⟩
    | exited => simp only [sysStep, hp]; exact ⟨h1, h2, h3, h4, h5⟩
  | serverObserveCancel =>
    cases hp : st.phase with
    | exited => simp only [sysStep, hp]; exact ⟨h1, h2, h3, h4, h5⟩
    | waitingFirst =>
      by_cases hcs : st.cancelled = true ∧ st.srvStopped = false
      · simp only [sysStep, hp, if_pos hcs]
        refine ⟨?_, ?_, ?_, ?_, ?_⟩
        · intro hx; exact Bool.noConfusion (hcs.1.symm.trans hx)
        · intro _
          show (st.trace ++ [Event.serverShutdownBegin]).count Event.cancelToken = 1
          rw [List.count_append, h2 hcs.1]; rfl
        · intro _
          have hne : st.phase ≠ WatcherPhase.exited := by
            rw [hp]; intro q; exact WatcherPhase.noConfusion q
          obtain ⟨ha, hb⟩ := h3 hne
          refine ⟨?_, ?_⟩
          · show (st.trace ++ [Event.serverShutdownBegin]).countP isExitEvent = 0
            rw [List.countP_append, ha]; rfl
          · show (st.trace ++ [Event.serverShutdownBegin]).count Event.onForceExit = 0
            rw [List.count_append, hb]; rfl
        · intro he; exact WatcherPhase.noConfusion he
        · intro _; exact Or.inl rfl
      · simp only [sysStep, hp, if_neg hcs]; exact ⟨h1, h2, h3, h4, h5⟩
    | racing =>
      by_cases hcs : st.cancelled = true ∧ st.srvStopped = false
      · simp only [sysStep, hp, if_pos hcs]
        refine ⟨?_, ?_, ?_, ?_, ?_⟩
        · intro hx; exact Bool.noConfusion (hcs.1.symm.trans hx)
        · intro _
          show (st.trace ++ [Event.serverShutdownBegin]).count Event.cancelToken = 1
          rw [List.count_append, h2 hcs.1]; rfl
        · intro _
          have hne : st.phase ≠ WatcherPhase.exited := by
            rw [hp]; intro q; exact WatcherPhase.noConfusion q
          obtain ⟨ha, hb⟩ := h3 hne
          refine ⟨?_, ?_⟩
          · show (st.trace ++ [Event.serverShutdownBegin]).countP isExitEvent = 0
            rw [List.countP_append, ha]; rfl
          · show (st.trace ++ [Event.serverShutdownBegin]).count Event.onForceExit = 0
            rw [List.count_append, hb]; rfl
        · intro he; exact WatcherPhase.noConfusion he
        · intro hg
          rcases h5 hg with h' | h' <;> exact WatcherPhase.noConfusion (hp.symm.trans h')
      · simp only [sysStep, hp, if_neg hcs]; exact ⟨h1, h2, h3, h4, h5⟩
    | done =>
      by_cases hcs : st.cancelled = true ∧ st.srvStopped = false
      · simp only [sysStep, hp, if_pos hcs]
        refine ⟨?_, ?_, ?_, ?_, ?_⟩
        · intro hx; exact Bool.noConfusion (hcs.1.symm.trans hx)
        · intro _
          show (st.trace ++ [Event.serverShutdownBegin]).count Event.cancelToken = 1
          rw [List.count_append, h2 hcs.1]; rfl
        · intro _
          have hne : st.phase ≠ WatcherPhase.exited := by
            rw [hp]; intro q; exact WatcherPhase.noConfusion q
          obtain ⟨ha, hb⟩ := h3 hne
          refine ⟨?_, ?_⟩
          · show (st.trace ++ [Event.serverShutdownBegin]).countP isExitEvent = 0
            rw [List.countP_append, ha]; rfl
          · show (st.trace ++ [Event.serverShutdownBegin]).count Event.onForceExit = 0
            rw [List.count_append, hb]; rfl
        · intro he; exact WatcherPhase.noConfusion he
        · intro _; exact Or.inr rfl
      · simp only [sysStep, hp, if_neg hcs]; exact ⟨h1, h2, h3, h4, h5⟩

theorem coordInv_run (c : shutdownConfig) (steps : List SysStep) :
    CoordInv c (sysRun c steps) :=
  foldl_inv (fun st step h => coordInv_step step h) steps initState (coordInv_init c)

/-! ## Non-membership and block facts used by the ordering lemmas -/

theorem mem_of_lookup {α : Type} {l : List α} {n : Nat} {a : α}
    (h : l[n]? = some a) : a ∈ l := by
  obtain ⟨hlt, he⟩ := List.getElem?_eq_some.mp h
  exact he ▸ List.getElem_mem hlt

theorem no_server_cancelEvents (b : Bool) :
    Event.serverShutdownBegin ∉ cancelEvents b := by
  cases b <;> simp [cancelEvents]

theorem no_exit_cancelEvents (b : Bool) :
    ∀ code : Int, Event.osExit code ∉ cancelEvents b := by
  intro code; cases b <;> simp [cancelEvents]

theorem no_onShutdown_cancelEvents (b : Bool) :
    ∀ s : Nat, Event.onShutdown s ∉ cancelEvents b := by
  intro s; cases b <;> simp [cancelEvents]

theorem no_server_signalArrival (st : SysState) (sig : Nat) :
    Event.serverShutdownBegin ∉ signalArrivalEvents st sig := by
  cases hc : st.cancelled <;> simp [signalArrivalEvents, cancelEvents, hc]

theorem no_exit_signalArrival (st : SysState) (sig : Nat) :
    ∀ code : Int, Event.osExit code ∉ signalArrivalEvents st sig := by
  intro code; cases hc : st.cancelled <;> simp [signalArrivalEvents, cancelEvents, hc]

theorem no_server_forceExit (c : shutdownConfig) (first : Event)
    (h : first ≠ Event.serverShutdownBegin) :
    Event.serverShutdownBegin ∉ forceExitEvents c first := by
  simp only [forceExitEvents, List.mem_cons, List.not_mem_nil]
  rintro (q | q | q | q)
  · exact h q.symm
  · exact Event.noConfusion q
  · exact Event.noConfusion q
  · exact q

theorem no_onShutdown_forceExit (c : shutdownConfig) (first : Event) (s : Nat)
    (h : first ≠ Event.onShutdown s) :
    Event.onShutdown s ∉ forceExitEvents c first := by
  simp only [forceExitEvents, List.mem_cons, List.not_mem_nil]
  rintro (q | q | q | q)
  · exact h q.symm
  · exact Event.noConfusion q
  · exact Event.noConfusion q
  · exact q

/-! ## Transfer of the ordering properties across appended effect blocks -/

theorem serverAfterCancel_append_none {t b : List Event}
    (hQ : ServerAfterCancel t) (hb : Event.serverShutdownBegin ∉ b) :
    ServerAfterCancel (t ++ b) := by
  intro k hk
  rcases Nat.lt_or_ge k t.length with hlt | hge
  · rw [List.getElem?_append_left hlt] at hk
    obtain ⟨j, hj, hjv⟩ := hQ k hk
    exact ⟨j, hj, lookup_append_left hjv⟩
  · rw [List.getElem?_append_right hge] at hk
    exact absurd (mem_of_lookup hk) hb

theorem serverAfterCancel_append_server {t : List Event}
    (hQ : ServerAfterCancel t) (hc : Event.cancelToken ∈ t) :
    ServerAfterCancel (t ++ [Event.serverShutdownBegin]) := by
  intro k hk
  rcases Nat.lt_or_ge k t.length with hlt | hge
  · rw [List.getElem?_append_left hlt] at hk
    obtain ⟨j, hj, hjv⟩ := hQ k hk
    exact ⟨j, hj, lookup_append_left hjv⟩
  · obtain ⟨j, hjlen, hjv⟩ := exists_lookup_of_mem hc
    exact ⟨j, Nat.lt_of_lt_of_le hjlen hge, lookup_append_left hjv⟩

theorem exitAfterForce_of_no_exit {b : List Event}
    (hb : ∀ code : Int, Event.osExit code ∉ b) : ExitAfterForce b := by
  intro k code hk
  exact absurd (mem_of_lookup hk) (hb code)

theorem exitAfterForce_append {t b : List Event}
    (hR : ExitAfterForce t) (hb : ExitAfterForce b) :
    ExitAfterForce (t ++ b) := by
  intro k code hk
  rcases Nat.lt_or_ge k t.length with hlt | hge
  · rw [List.getElem?_append_left hlt] at hk
    obtain ⟨j, hj, hjv⟩ := hR k code hk
    exact ⟨j, hj, lookup_append_left hjv⟩
  · rw [List.getElem?_append_right hge] at hk
    obtain ⟨j, hj, hjv⟩ := hb _ code hk
    refine ⟨t.length + j, by omega, lookup_append_right t hjv⟩

theorem exitAfterForce_forceExit (c : shutdownConfig) (first : Event)
    (hfirst : isExitEvent first = false) :
    ExitAfterForce (forceExitEvents c first) := by
  intro k code hk
  match k with
  | 0 =>
    have hx : first = Event.osExit code := by
      simpa [forceExitEvents] using hk
    rw [hx] at hfirst
    exact Bool.noConfusion hfirst
  | 1 => exact absurd hk (by simp [forceExitEvents])
  | 2 => exact ⟨1, rfl, rfl⟩
  | (n + 3) => exact absurd hk (by simp [forceExitEvents])

theorem shutdownThenCancel_append_none {t b : List Event}
    (hS : ShutdownThenCancel t) (hb : ∀ s : Nat, Event.onShutdown s ∉ b) :
    ShutdownThenCancel (t ++ b) := by
  intro i s hi
  rcases Nat.lt_or_ge i t.length with hlt | hge
  · rw [List.getElem?_append_left hlt] at hi
    rcases hS i s hi with h | ⟨j, hj, hjv⟩
    · exact Or.inl (lookup_append_left h)
    · exact Or.inr ⟨j, hj, lookup_append_left hjv⟩
  · rw [List.getElem?_append_right hge] at hi
    exact absurd (mem_of_lookup hi) (hb s)

theorem shutdownThenCancel_append_fresh {t : List Event} (sig : Nat)
    (hS : ShutdownThenCancel t) :
    ShutdownThenCancel
      (t ++ [Event.logReceivedSignal sig, Event.onShutdown sig, Event.cancelToken]) := by
  intro i s hi
  rcases Nat.lt_or_ge i t.length with hlt | hge
  · rw [List.getElem?_append_left hlt] at hi
    rcases hS i s hi with h | ⟨j, hj, hjv⟩
    · exact Or.inl (lookup_append_left h)
    · exact Or.inr ⟨j, hj, lookup_append_left hjv⟩
  · rw [List.getElem?_append_right hge] at hi
    obtain ⟨ib, hib⟩ : ∃ ib, i - t.length = ib := ⟨_, rfl⟩
    rw [hib] at hi
    rcases ib with _ | _ | _ | ib
    · exact absurd hi (by simp)
    · left
      rw [show i + 1 = t.length + 2 by omega]
      exact lookup_append_right t rfl
    · exact absurd hi (by simp)
    · exact absurd hi (by simp)

theorem shutdownThenCancel_append_already {t : List Event} (sig : Nat)
    (hS : ShutdownThenCancel t) (hc : Event.cancelToken ∈ t) :
    ShutdownThenCancel
      (t ++ [Event.logReceivedSignal sig, Event.onShutdown sig]) := by
  intro i s hi
  rcases Nat.lt_or_ge i t.length with hlt | hge
  · rw [List.getElem?_append_left hlt] at hi
    rcases hS i s hi with h | ⟨j, hj, hjv⟩
    · exact Or.inl (lookup_append_left h)
    · exact Or.inr ⟨j, hj, lookup_append_left hjv⟩
  · rw [List.getElem?_append_right hge] at hi
    obtain ⟨ib, hib⟩ : ∃ ib, i - t.length = ib := ⟨_, rfl⟩
    rw [hib] at hi
    rcases ib with _ | _ | ib
    · exact absurd hi (by simp)
    · right
      obtain ⟨j, hjlen, hjv⟩ := exists_lookup_of_mem hc
      exact ⟨j, by omega, lookup_append_left hjv⟩
    · exact absurd hi (by simp)

/-! ## The ordering properties are preserved by every step -/

theorem traceProps_step {c : shutdownConfig} {st : SysState} (step : SysStep)
    (hC : CoordInv c st) (hQ : ServerAfterCancel st.trace)
    (hR : ExitAfterForce st.trace) (hS : ShutdownThenCancel st.trace) :
    ServerAfterCancel (sysStep c st step).trace
    ∧ ExitAfterForce (sysStep c st step).trace
    ∧ ShutdownThenCancel (sysStep c st step).trace := by
  have hmem : st.cancelled = true → Event.cancelToken ∈ st.trace := by
    intro hc
    exact List.count_pos_iff.mp (by rw [hC.2.1 hc]; exact Nat.one_pos)
  cases step with
  | manualCancel =>
    cases hp : st.phase with
    | exited => simp only [sysStep, hp]; exact ⟨hQ, hR, hS⟩
    | waitingFirst =>
      simp only [sysStep, hp]
      exact ⟨serverAfterCancel_append_none hQ (no_server_cancelEvents st.cancelled),
        exitAfterForce_append hR (exitAfterForce_of_no_exit (no_exit_cancelEvents st.cancelled)),
        shutdownThenCancel_append_none hS (no_onShutdown_cancelEvents st.cancelled)⟩
    | racing =>
      simp only [sysStep, hp]
      exact ⟨serverAfterCancel_append_none hQ (no_server_cancelEvents st.cancelled),
        exitAfterForce_append hR (exitAfterForce_of_no_exit (no_exit_cancelEvents st.cancelled)),
        shutdownThenCancel_append_none hS (no_onShutdown_cancelEvents st.cancelled)⟩
    | done =>
      simp only [sysStep, hp]
      exact ⟨serverAfterCancel_append_none hQ (no_server_cancelEvents st.cancelled),
        exitAfterForce_append hR (exitAfterForce_of_no_exit (no_exit_cancelEvents st.cancelled)),
        shutdownThenCancel_append_none hS (no_onShutdown_cancelEvents st.cancelled)⟩
  | deliverSignal sig =>
    by_cases hs : sig ∈ c.signals
    · cases hp : st.phase with
      | waitingFirst =>
        simp only [sysStep, hp, hs, if_true]
        refine ⟨?_, ?_, ?_⟩
        · exact serverAfterCancel_append_none hQ (no_server_signalArrival st sig)
        · exact exitAfterForce_append hR
            (exitAfterForce_of_no_exit (no_exit_signalArrival st sig))
        · cases hc : st.cancelled with
          | false =>
            show ShutdownThenCancel (st.trace ++ signalArrivalEvents st sig)
            have htr : signalArrivalEvents st sig
                = [Event.logReceivedSignal sig, Event.onShutdown sig, Event.cancelToken] := by
              rw [signalArrivalEvents, hc]; rfl
            rw [htr]
            exact shutdownThenCancel_append_fresh sig hS
          | true =>
            show ShutdownThenCancel (st.trace ++ signalArrivalEvents st sig)
            have htr : signalArrivalEvents st sig
                = [Event.logReceivedSignal sig, Event.onShutdown sig] := by
              rw [signalArrivalEvents, hc]; rfl
            rw [htr]
            exact shutdownThenCancel_append_already sig hS (hmem hc)
      | racing =>
        simp only [sysStep, hp, hs, if_true]
        refine ⟨?_, ?_, ?_⟩
        · exact serverAfterCancel_append_none hQ
            (no_server_forceExit c _ (by intro q; exact Event.noConfusion q))
        · exact exitAfterForce_append hR (exitAfterForce_forceExit c _ rfl)
        · exact shutdownThenCancel_append_none hS
            (fun s => no_onShutdown_forceExit c _ s (by intro q; exact Event.noConfusion q))
      | done => simp only [sysStep, hp, hs, if_true]; exact ⟨hQ, hR, hS⟩
      | exited => simp only [sysStep, hp, hs, if_true]; exact ⟨hQ, hR, hS⟩
    · simp only [sysStep, if_neg hs]; exact ⟨hQ, hR, hS⟩
  | timerFires =>
    cases hp : st.phase with
    | racing =>
      simp only [sysStep, hp]
      refine ⟨?_, ?_, ?_⟩
      · exact serverAfterCancel_append_none hQ
          (no_server_forceExit c _ (by intro q; exact Event.noConfusion q))
      · exact exitAfterForce_append hR (exitAfterForce_forceExit c _ rfl)
      · exact shutdownThenCancel_append_none hS
          (fun s => no_onShutdown_forceExit c _ s (by intro q; exact Event.noConfusion q))
    | waitingFirst => simp only [sysStep, hp]; exact ⟨hQ, hR, hS⟩
    | done => simp only [sysStep, hp]; exact ⟨hQ, hR, hS⟩
    | exited => simp only [sysStep, hp]; exact ⟨hQ, hR, hS⟩
  | serverObserveCancel =>
    cases hp : st.phase with
    | exited => simp only [sysStep, hp]; exact ⟨hQ, hR, hS⟩
    | waitingFirst =>
      by_cases hcs : st.cancelled = true ∧ st.srvStopped = false
      · simp only [sysStep, hp, if_pos hcs]
        refine ⟨?_, ?_, ?_⟩
        · exact serverAfterCancel_append_server hQ (hmem hcs.1)
        · exact exitAfterForce_append hR
            (exitAfterForce_of_no_exit (by intro code; simp))
        · exact shutdownThenCancel_append_none hS (by intro s; simp)
      · simp only [sysStep, hp, if_neg hcs]; exact ⟨hQ, hR, hS⟩
    | racing =>
      by_cases hcs : st.cancelled = true ∧ st.srvStopped = false
      · simp only [sysStep, hp, if_pos hcs]
        refine ⟨?_, ?_, ?_⟩
        · exact serverAfterCancel_append_server hQ (hmem hcs.1)
        · exact exitAfterForce_append hR
            (exitAfterForce_of_no_exit (by intro code; simp))
        · exact shutdownThenCancel_append_none hS (by intro s; simp)
      · simp only [sysStep, hp, if_neg hcs]; exact ⟨hQ, hR, hS⟩
    | done =>
      by_cases hcs : st.cancelled = true ∧ st.srvStopped = false
      · simp only [sysStep, hp, if_pos hcs]
        refine ⟨?_, ?_, ?_⟩
        · exact serverAfterCancel_append_server hQ (hmem hcs.1)
        · exact exitAfterForce_append hR
            (exitAfterForce_of_no_exit (by intro code; simp))
        · exact shutdownThenCancel_append_none hS (by intro s; simp)
      · simp only [sysStep, hp, if_neg hcs]; exact ⟨hQ, hR, hS⟩

theorem traceInv_step {c : shutdownConfig} {st : SysState} (step : SysStep)
    (h : TraceInv c st) : TraceInv c (sysStep c st step) :=
  ⟨coordInv_step step h.1, traceProps_step step h.1 h.2.1 h.2.2.1 h.2.2.2⟩

theorem traceInv_run (c : shutdownConfig) (steps : List SysStep) :
    TraceInv c (sysRun c steps) := by
  refine foldl_inv (fun st step h => traceInv_step step h) steps initState
    ⟨coordInv_init c, ?_, ?_, ?_⟩
  · intro k hk; exact absurd hk (by simp [initState])
  · intro k code hk; exact absurd hk (by simp [initState])
  · intro i sg hi; exact absurd hi (by simp [initState])

/-! ## Runs split at an append; cancellation is monotone -/

theorem sysRun_append (c : shutdownConfig) (pre post : List SysStep) :
    sysRun c (pre ++ post) = post.foldl (sysStep c) (sysRun c pre) := by
  unfold sysRun
  rw [List.foldl_append]

theorem cancelled_mono_step {c : shutdownConfig} {st : SysState} (step : SysStep)
    (hc : st.cancelled = true) :
    (sysStep c st step).cancelled = true
    ∧ (sysStep c st step).trace.count Event.cancelToken
        = st.trace.count Event.cancelToken := by
  refine ⟨?_, ?_⟩ <;> cases step
  case refine_1.manualCancel =>
    cases hp : st.phase <;> simp only [sysStep, hp] <;> exact hc
  case refine_1.deliverSignal sig =>
    by_cases hs : sig ∈ c.signals
    · cases hp : st.phase <;> simp only [sysStep, hp, hs, if_true] <;> exact hc
    · simp only [sysStep, if_neg hs]; exact hc
  case refine_1.timerFires =>
    cases hp : st.phase <;> simp only [sysStep, hp] <;> exact hc
  case refine_1.serverObserveCancel =>
    cases hp : st.phase <;>
      first
      | (simp only [sysStep, hp]; exact hc)
      | (by_cases hcs : st.cancelled = true ∧ st.srvStopped = false
         · simp only [sysStep, hp, if_pos hcs]; exact hc
         · simp only [sysStep, hp, if_neg hcs]; exact hc)
  case refine_2.manualCancel =>
    cases hp : st.phase <;> simp only [sysStep, hp]
    all_goals
      show (st.trace ++ cancelEvents st.cancelled).count Event.cancelToken
        = st.trace.count Event.cancelToken
    all_goals rw [hc, List.count_append]
    all_goals rfl
  case refine_2.deliverSignal sig =>
    by_cases hs : sig ∈ c.signals
    · cases hp : st.phase <;> simp only [sysStep, hp, hs, if_true]
      · show (st.trace ++ signalArrivalEvents st sig).count Event.cancelToken
          = st.trace.count Event.cancelToken
        rw [signalArrivalEvents, hc, List.count_append]
        rfl
      · show (st.trace ++ forceExitEvents c (Event.logSecondSignal sig)).count
            Event.cancelToken = st.trace.count Event.cancelToken
        rw [List.count_append]
        rfl
    · simp only [sysStep, if_neg hs]
  case refine_2.timerFires =>
    cases hp : st.phase <;> simp only [sysStep, hp]
    show (st.trace ++ forceExitEvents c Event.logForcedTimeout).count
        Event.cancelToken = st.trace.count Event.cancelToken
    rw [List.count_append]
    rfl
  case refine_2.serverObserveCancel =>
    cases hp : st.phase <;>
      first
      | (simp only [sysStep, hp]; done)
      | (by_cases hcs : st.cancelled = true ∧ st.srvStopped = false
         · simp only [sysStep, hp, if_pos hcs]
           show (st.trace ++ [Event.serverShutdownBegin]).count Event.cancelToken
             = st.trace.count Event.cancelToken
           rw [List.count_append]
           rfl
         · simp only [sysStep, hp, if_neg hcs])

theorem cancelled_mono_run {c : shutdownConfig} (more : List SysStep) :
    ∀ st : SysState, st.cancelled = true →
      (more.foldl (sysStep c) st).cancelled = true
      ∧ (more.foldl (sysStep c) st).trace.count Event.cancelToken
          = st.trace.count Event.cancelToken := by
  induction more with
  | nil => intro st h; exact ⟨h, rfl⟩
  | cons hd tl ih =>
    intro st h
    obtain ⟨h1, h2⟩ := cancelled_mono_step hd h
    obtain ⟨h3, h4⟩ := ih _ h1
    exact ⟨h3, h4.trans h2⟩

/-! ## Runs that never see a configured signal stay in waitingFirst -/

theorem run_no_signals {c : shutdownConfig} (steps : List SysStep) :
    (∀ s ∈ c.signals, SysStep.deliverSignal s ∉ steps) →
    ∀ st : SysState, st.phase = WatcherPhase.waitingFirst →
      (steps.foldl (sysStep c) st).phase = WatcherPhase.waitingFirst
      ∧ (st.cancelled = true → (steps.foldl (sysStep c) st).cancelled = true)
      ∧ (SysStep.manualCancel ∈ steps → (steps.foldl (sysStep c) st).cancelled = true) := by
  induction steps with
  | nil =>
    intro _ st hphase
    exact ⟨hphase, fun h => h, fun h => absurd h (List.not_mem_nil _)⟩
  | cons hd tl ih =>
    intro hnosig st hphase
    have hnosig_tl : ∀ s ∈ c.signals, SysStep.deliverSignal s ∉ tl := by
      intro s hs hmem
      exact hnosig s hs (List.mem_cons_of_mem hd hmem)
    have hstep : (sysStep c st hd).phase = WatcherPhase.waitingFirst
        ∧ (st.cancelled = true → (sysStep c st hd).cancelled = true)
        ∧ (hd = SysStep.manualCancel → (sysStep c st hd).cancelled = true) := by
      cases hd with
      | manualCancel =>
        refine ⟨?_, ?_, ?_⟩
        · show (sysStep c st SysStep.manualCancel).phase = WatcherPhase.waitingFirst
          simp only [sysStep, hphase]
        · intro _; simp only [sysStep, hphase]
        · intro _; simp only [sysStep, hphase]
      | deliverSignal sg =>
        by_cases hsig : sg ∈ c.signals
        · exact absurd (List.mem_cons_self _ _) (hnosig sg hsig)
        · refine ⟨?_, ?_, ?_⟩
          · simp only [sysStep, if_neg hsig]; exact hphase
          · intro h; simp only [sysStep, if_neg hsig]; exact h
          · intro h; exact SysStep.noConfusion h
      | timerFires =>
        refine ⟨?_, ?_, ?_⟩
        · simp only [sysStep, hphase]
        · intro h; simp only [sysStep, hphase]; exact h
        · intro h; exact SysStep.noConfusion h
      | serverObserveCancel =>
        by_cases hcs : st.cancelled = true ∧ st.srvStopped = false
        · refine ⟨?_, ?_, ?_⟩
          · simp only [sysStep, hphase, if_pos hcs]
          · intro h; simp only [sysStep, hphase, if_pos hcs]; exact h
          · intro h; exact SysStep.noConfusion h
        · refine ⟨?_, ?_, ?_⟩
          · simp only [sysStep, hphase, if_neg hcs]
          · intro h; simp only [sysStep, hphase, if_neg hcs]; exact h
          · intro h; exact SysStep.noConfusion h
    obtain ⟨hp1, hc1, hm1⟩ := hstep
    obtain ⟨hp2, hc2, hm2⟩ := ih hnosig_tl (sysStep c st hd) hp1
    refine ⟨hp2, fun h => hc2 (hc1 h), ?_⟩
    intro hmem
    rcases List.mem_cons.mp hmem with heq | hmemtl
    · exact hc2 (hm1 heq.symm)
    · exact hm2 hmemtl


/-! ## Auxiliary phase lemmas for the disabled-force-exit path -/

theorem done_step {c : shutdownConfig} {st : SysState} (step : SysStep)
    (hd : st.phase = WatcherPhase.done) :
    (sysStep c st step).phase = WatcherPhase.done := by
  cases step with
  | manualCancel => simp only [sysStep, hd]
  | deliverSignal sig =>
    by_cases hs : sig ∈ c.signals
    · simp only [sysStep, hd, hs, if_true]
    · simp only [sysStep, if_neg hs]; exact hd
  | timerFires => simp only [sysStep, hd]
  | serverObserveCancel =>
    by_cases hcs : st.cancelled = true ∧ st.srvStopped = false
    · simp only [sysStep, hd, if_pos hcs]
    · simp only [sysStep, hd, if_neg hcs]

theorem done_stays {c : shutdownConfig} (steps : List SysStep) :
    ∀ st : SysState, st.phase = WatcherPhase.done →
      (steps.foldl (sysStep c) st).phase = WatcherPhase.done := by
  induction steps with
  | nil => intro st h; exact h
  | cons hd tl ih => intro st h; exact ih _ (done_step hd h)

theorem signal_sets_done {c : shutdownConfig} {st : SysState}
    (hfe : c.forceExit = false) (sig : Nat) (hs : sig ∈ c.signals)
    (hp : st.phase = WatcherPhase.waitingFirst) :
    (sysStep c st (SysStep.deliverSignal sig)).phase = WatcherPhase.done := by
  simp [sysStep, hp, hs, hfe]

theorem phases_no_force_step {c : shutdownConfig} {st : SysState}
    (hfe : c.forceExit = false) (step : SysStep)
    (hph : st.phase = WatcherPhase.waitingFirst ∨ st.phase = WatcherPhase.done) :
    (sysStep c st step).phase = WatcherPhase.waitingFirst
    ∨ (sysStep c st step).phase = WatcherPhase.done := by
  rcases hph with hp | hp
  · cases step with
    | manualCancel => left; simp only [sysStep, hp]
    | deliverSignal sig =>
      by_cases hs : sig ∈ c.signals
      · right; exact signal_sets_done hfe sig hs hp
      · left; simp only [sysStep, if_neg hs]; exact hp
    | timerFires => left; simp only [sysStep, hp]
    | serverObserveCancel =>
      by_cases hcs : st.cancelled = true ∧ st.srvStopped = false
      · left; simp only [sysStep, hp, if_pos hcs]
      · left; simp only [sysStep, hp, if_neg hcs]
  · right; exact done_step step hp

theorem done_after_signal {c : shutdownConfig} (hfe : c.forceExit = false)
    (steps : List SysStep) :
    ∀ st : SysState,
      (st.phase = WatcherPhase.waitingFirst ∨ st.phase = WatcherPhase.done) →
      ∀ s ∈ c.signals, SysStep.deliverSignal s ∈ steps →
        (steps.foldl (sysStep c) st).phase = WatcherPhase.done := by
  induction steps with
  | nil => intro st _ s _ hmem; exact absurd hmem (List.not_mem_nil _)
  | cons hd tl ih =>
    intro st hph s hs hmem
    rcases List.mem_cons.mp hmem with heq | hmemtl
    · rcases hph with hp | hp
      · refine done_stays tl _ ?_
        rw [← heq]
        exact signal_sets_done hfe s hs hp
      · exact done_stays tl _ (done_step hd hp)
    · exact ih _ (phases_no_force_step hfe hd hph) s hs hmemtl

/-! ## The claims -/

/-- Claim C1 (corrected): counterexample to the claim as stated.  With
the default configuration, invoke the manual cancel before any signal.
The claim says the force-exit race is never armed and the watcher task
ends without invoking `onForceExit` or the terminator; but the watcher
stays subscribed to the signal channel, and a signal delivered afterwards
still arms the race, whose timer arm then invokes `onForceExit` and the
terminator. -/
theorem manual_cancel_counterexample :
    Event.onForceExit
        ∈ (sysRun (applyOptions [])
            [SysStep.manualCancel, SysStep.deliverSignal 15, SysStep.timerFires]).trace
    ∧ Event.osExit 1
        ∈ (sysRun (applyOptions [])
            [SysStep.manualCancel, SysStep.deliverSignal 15, SysStep.timerFires]).trace
    ∧ (sysRun (applyOptions []) [SysStep.manualCancel, SysStep.deliverSignal 15]).phase
        = WatcherPhase.racing := by decide

/-- Claim C1 (corrected, amended): invoking the manual cancel before any
configured signal transitions the token to cancelled, and as long as no
configured signal is delivered the force-exit race is never armed and
neither `onForceExit` nor the terminator is invoked; but the watcher task
does not end — it remains blocked on the signal channel receive
(phase `waitingFirst`). -/
theorem manual_cancel_no_signal (c : shutdownConfig) (steps : List SysStep)
    (hnosig : ∀ s ∈ c.signals, SysStep.deliverSignal s ∉ steps)
    (hcancel : SysStep.manualCancel ∈ steps) :
    (sysRun c steps).cancelled = true
    ∧ (sysRun c steps).phase = WatcherPhase.waitingFirst
    ∧ Event.onForceExit ∉ (sysRun c steps).trace
    ∧ (∀ code : Int, Event.osExit code ∉ (sysRun c steps).trace) := by
  obtain ⟨hph, _, hm⟩ := run_no_signals steps hnosig initState rfl
  have hcan := hm hcancel
  obtain ⟨_, _, h3, _, _⟩ := coordInv_run c steps
  have hne : (sysRun c steps).phase ≠ WatcherPhase.exited := by
    rw [show (sysRun c steps).phase = WatcherPhase.waitingFirst from hph]
    intro q; exact WatcherPhase.noConfusion q
  obtain ⟨ha, hb⟩ := h3 hne
  refine ⟨hcan, hph, List.count_eq_zero.mp hb, ?_⟩
  intro code hmem
  exact (List.countP_eq_zero.mp ha) _ hmem rfl

/-- Concrete instance of the amended C1: a single manual cancel with no
signal at all. -/
theorem manual_cancel_no_signal_witness :
    (sysRun (applyOptions []) [SysStep.manualCancel]).cancelled = true
    ∧ (sysRun (applyOptions []) [SysStep.manualCancel]).phase = WatcherPhase.waitingFirst
    ∧ Event.onForceExit ∉ (sysRun (applyOptions []) [SysStep.manualCancel]).trace
    ∧ (∀ code : Int,
        Event.osExit code ∉ (sysRun (applyOptions []) [SysStep.manualCancel]).trace) :=
  manual_cancel_no_signal (applyOptions []) [SysStep.manualCancel] (by decide) (by decide)

/-- Claim C2 (confirmed): with force exit enabled, after the first
configured signal the watcher races the grace timer against a second
signal from the same channel.  Whichever event occurs first produces
exactly one `onForceExit` invocation followed immediately by exactly one
terminator invocation with the configured exit code; the `timerFires`
event is by definition the expiry of the `config.timeout` deadline armed
when the race began, so the timeout arm fires after about the grace
period while the second-signal arm fires immediately.  Over any schedule
the terminator and `onForceExit` each run at most once. -/
theorem forceExit_race (c : shutdownConfig) (s1 s2 : Nat)
    (hfe : c.forceExit = true) (h1 : s1 ∈ c.signals) (h2 : s2 ∈ c.signals) :
    (sysRun c [SysStep.deliverSignal s1, SysStep.timerFires]).trace
      = [Event.logReceivedSignal s1, Event.onShutdown s1, Event.cancelToken,
         Event.logForcedTimeout, Event.onForceExit, Event.osExit c.exitCode]
    ∧ (sysRun c [SysStep.deliverSignal s1, SysStep.deliverSignal s2]).trace
      = [Event.logReceivedSignal s1, Event.onShutdown s1, Event.cancelToken,
         Event.logSecondSignal s2, Event.onForceExit, Event.osExit c.exitCode]
    ∧ (∀ steps : List SysStep,
        (sysRun c steps).trace.countP isExitEvent ≤ 1
        ∧ (sysRun c steps).trace.count Event.onForceExit ≤ 1) := by
  refine ⟨?_, ?_, ?_⟩
  · simp [sysRun, sysStep, initState, signalArrivalEvents, cancelEvents, forceExitEvents,
      h1, hfe]
  · simp [sysRun, sysStep, initState, signalArrivalEvents, cancelEvents, forceExitEvents,
      h1, h2, hfe]
  · intro steps
    obtain ⟨_, _, h3, h4, _⟩ := coordInv_run c steps
    by_cases hex : (sysRun c steps).phase = WatcherPhase.exited
    · obtain ⟨a, b⟩ := h4 hex
      exact ⟨a.le, b.le⟩
    · obtain ⟨a, b⟩ := h3 hex
      exact ⟨by rw [a]; exact Nat.zero_le 1, by rw [b]; exact Nat.zero_le 1⟩

/-- Concrete instance of C2 at the default configuration: interrupt, then
timer expiry. -/
theorem forceExit_race_witness :
    (sysRun (applyOptions []) [SysStep.deliverSignal 2, SysStep.timerFires]).trace
      = [Event.logReceivedSignal 2, Event.onShutdown 2, Event.cancelToken,
         Event.logForcedTimeout, Event.onForceExit, Event.osExit 1] :=
  (forceExit_race (applyOptions []) 2 15 (by decide) (by decide) (by decide)).1

/-- Claim C3 (corrected): counterexample to the claim as stated.  A
manual cancel followed by a configured signal is an execution in which a
configured signal is observed, yet the only token transition in the trace
occurs before `onShutdown`, not after it. -/
theorem ordering_counterexample :
    (sysRun (applyOptions []) [SysStep.manualCancel, SysStep.deliverSignal 15]).trace
      = [Event.cancelToken, Event.logReceivedSignal 15, Event.onShutdown 15]
    ∧ ¬ (∃ i j : Nat, i < j
        ∧ (sysRun (applyOptions [])
            [SysStep.manualCancel, SysStep.deliverSignal 15]).trace[i]?
            = some (Event.onShutdown 15)
        ∧ (sysRun (applyOptions [])
            [SysStep.manualCancel, SysStep.deliverSignal 15]).trace[j]?
            = some Event.cancelToken) := by
  refine ⟨by decide, ?_⟩
  rintro ⟨i, j, hij, hi, hj⟩
  have ht : (sysRun (applyOptions []) [SysStep.manualCancel, SysStep.deliverSignal 15]).trace
      = [Event.cancelToken, Event.logReceivedSignal 15, Event.onShutdown 15] := by decide
  rw [ht] at hi hj
  match j, hj with
  | 0, hj => exact Nat.not_lt_zero i hij
  | 1, hj => exact absurd hj (by decide)
  | 2, hj => exact absurd hj (by decide)
  | (n + 3), hj => exact absurd hj (by simp)

/-- Claim C3 (corrected, amended): over every schedule, the token
transition always occurs strictly before any dependent shutdown-watcher
begins its stop sequence, `onForceExit` always fires immediately before
the terminator (process termination), and `onShutdown` fires strictly
before the token transition whenever the token is still active when the
signal arrives — the transition is the very next trace event; when a
manual cancel has already cancelled the token, the transition instead
precedes `onShutdown`. -/
theorem ordering_guarantees (c : shutdownConfig) :
    ∀ steps : List SysStep,
      ServerAfterCancel (sysRun c steps).trace
      ∧ ExitAfterForce (sysRun c steps).trace
      ∧ ShutdownThenCancel (sysRun c steps).trace := by
  intro steps
  obtain ⟨_, hQ, hR, hS⟩ := traceInv_run c steps
  exact ⟨hQ, hR, hS⟩

/-- Claim C4 (confirmed): with force exit disabled the terminator and
`onForceExit` are never invoked over any schedule, the watcher never arms
the force-exit race (its phase is only ever `waitingFirst` or `done`),
and once a configured signal has been delivered the watcher task has
exited (`done`), with no timer armed. -/
theorem no_terminator_when_disabled (c : shutdownConfig) (hfe : c.forceExit = false) :
    ∀ steps : List SysStep,
      (sysRun c steps).trace.countP isExitEvent = 0
      ∧ Event.onForceExit ∉ (sysRun c steps).trace
      ∧ ((sysRun c steps).phase = WatcherPhase.waitingFirst
          ∨ (sysRun c steps).phase = WatcherPhase.done)
      ∧ (∀ s ∈ c.signals, SysStep.deliverSignal s ∈ steps →
          (sysRun c steps).phase = WatcherPhase.done) := by
  intro steps
  obtain ⟨_, _, h3, _, h5⟩ := coordInv_run c steps
  have hph := h5 hfe
  have hne : (sysRun c steps).phase ≠ WatcherPhase.exited := by
    rcases hph with hp | hp <;> rw [hp] <;> intro q <;> exact WatcherPhase.noConfusion q
  obtain ⟨ha, hb⟩ := h3 hne
  refine ⟨ha, List.count_eq_zero.mp hb, hph, ?_⟩
  intro s hs hmem
  exact done_after_signal hfe steps initState (Or.inl rfl) s hs hmem

/-- Concrete instance of C4: force exit disabled, a signal and then the
timer event; no terminator invocation appears. -/
theorem no_terminator_when_disabled_witness :
    (sysRun (applyOptions [WithoutForceExit])
        [SysStep.deliverSignal 2, SysStep.timerFires]).trace.countP isExitEvent = 0
    ∧ Event.onForceExit ∉ (sysRun (applyOptions [WithoutForceExit])
        [SysStep.deliverSignal 2, SysStep.timerFires]).trace
    ∧ ((sysRun (applyOptions [WithoutForceExit])
          [SysStep.deliverSignal 2, SysStep.timerFires]).phase = WatcherPhase.waitingFirst
        ∨ (sysRun (applyOptions [WithoutForceExit])
            [SysStep.deliverSignal 2, SysStep.timerFires]).phase = WatcherPhase.done)
    ∧ (∀ s ∈ (applyOptions [WithoutForceExit]).signals,
        SysStep.deliverSignal s ∈ [SysStep.deliverSignal 2, SysStep.timerFires] →
          (sysRun (applyOptions [WithoutForceExit])
            [SysStep.deliverSignal 2, SysStep.timerFires]).phase = WatcherPhase.done) :=
  no_terminator_when_disabled (applyOptions [WithoutForceExit]) (by decide)
    [SysStep.deliverSignal 2, SysStep.timerFires]

/-- Claim C5 (confirmed): the completion channel yields exactly one
terminal value and is then closed; a nil or `ErrServerClosed` outcome of
`startFn` is normalized to success, any other error is forwarded as is,
and the delivered value does not depend on the input token at all (no
cancellation is needed in the failure case). -/
theorem completion_channel_spec (ctx : Ctx) (startResult : Option GoError)
    (shutdownFn : Ctx → Option GoError) (opts : List HTTPOption) :
    (RunHTTPServerWithContext ctx startResult shutdownFn opts).errCh.length = 1
    ∧ (RunHTTPServerWithContext ctx startResult shutdownFn opts).errChClosed = true
    ∧ ((startResult = none ∨ startResult = some GoError.errServerClosed) →
        (RunHTTPServerWithContext ctx startResult shutdownFn opts).errCh = [none])
    ∧ (∀ e : GoError, startResult = some e → e ≠ GoError.errServerClosed →
        (RunHTTPServerWithContext ctx startResult shutdownFn opts).errCh = [some e])
    ∧ (RunHTTPServerWithContext ctx startResult shutdownFn opts).errCh
        = (RunHTTPServerWithContext contextBackground startResult shutdownFn opts).errCh := by
  refine ⟨rfl, rfl, ?_, ?_, rfl⟩
  · rintro (h | h) <;> subst h <;> simp [RunHTTPServerWithContext, startTaskSend]
  · intro e he hne
    subst he
    simp [RunHTTPServerWithContext, startTaskSend, hne]

/-- Claim C6 (confirmed): a drain error, deadline exceeded included, is
logged but never propagated to the completion channel: the channel value
is a function of startFn alone, and a startFn that returns
`ErrServerClosed` reports success even when `Shutdown` returned the
deadline-exceeded error. -/
theorem drain_error_not_propagated (ctx : Ctx) (startResult : Option GoError)
    (shutdownFn : Ctx → Option GoError) (opts : List HTTPOption) :
    (∀ shutdownFn2 : Ctx → Option GoError,
      (RunHTTPServerWithContext ctx startResult shutdownFn opts).errCh
        = (RunHTTPServerWithContext ctx startResult shutdownFn2 opts).errCh)
    ∧ (∀ e : GoError, ctx.done = true →
        shutdownFn (contextWithTimeout contextBackground
          (applyHTTPOptions opts).shutdownTimeout) = some e →
        HTTPLogEvent.errorServerShutdown e
          ∈ (RunHTTPServerWithContext ctx startResult shutdownFn opts).logs)
    ∧ (startResult = some GoError.errServerClosed →
        (RunHTTPServerWithContext ctx startResult shutdownFn opts).errCh = [none])
    ∧ (RunHTTPServerWithContext ctx (some GoError.errServerClosed)
        (fun _ => some GoError.deadlineExceeded) opts).errCh = [none] := by
  refine ⟨fun _ => rfl, ?_, ?_, ?_⟩
  · intro e hdone herr
    simp [RunHTTPServerWithContext, hdone, herr]
  · intro h
    subst h
    simp [RunHTTPServerWithContext, startTaskSend]
  · simp [RunHTTPServerWithContext, startTaskSend]

/-- Claim C7 (confirmed): when the token fires, the context handed to the
graceful stop is freshly derived from the background context with the
configured grace period as its whole budget: it is not done, its deadline
is the full grace period, and it does not depend on the input token; by
contrast, a context derived from the already-cancelled input token would
be immediately done. -/
theorem fresh_shutdown_deadline (ctx : Ctx) (startResult : Option GoError)
    (shutdownFn : Ctx → Option GoError) (opts : List HTTPOption)
    (hdone : ctx.done = true) :
    (RunHTTPServerWithContext ctx startResult shutdownFn opts).shutdownCtxUsed
      = some (contextWithTimeout contextBackground (applyHTTPOptions opts).shutdownTimeout)
    ∧ (contextWithTimeout contextBackground (applyHTTPOptions opts).shutdownTimeout).done
        = false
    ∧ (contextWithTimeout contextBackground (applyHTTPOptions opts).shutdownTimeout).budget
        = some (applyHTTPOptions opts).shutdownTimeout
    ∧ (contextWithTimeout ctx (applyHTTPOptions opts).shutdownTimeout).done = true := by
  refine ⟨?_, rfl, rfl, hdone⟩
  simp [RunHTTPServerWithContext, hdone]

/-- Concrete instance of C7: a cancelled input token with an exhausted
budget, a 5 nanosecond grace period. -/
theorem fresh_shutdown_deadline_witness :
    (RunHTTPServerWithContext { done := true, budget := some 0 } none
        (fun _ => none) [WithHTTPShutdownTimeout 5]).shutdownCtxUsed
      = some (contextWithTimeout contextBackground
          (applyHTTPOptions [WithHTTPShutdownTimeout 5]).shutdownTimeout) :=
  (fresh_shutdown_deadline { done := true, budget := some 0 } none (fun _ => none)
    [WithHTTPShutdownTimeout 5] rfl).1

/-- Claim C8 (confirmed): the token transition active to cancelled is
one-way and idempotent: over any schedule the transition is recorded at
most once; a manual cancel always leaves the token cancelled with exactly
one recorded transition; and once the token is cancelled, any further
trigger (repeated manual cancel, a signal after manual cancel, a manual
cancel after a signal) keeps it cancelled and records no further
transition. -/
theorem cancel_one_way_idempotent (c : shutdownConfig) :
    ∀ pre more : List SysStep,
      (sysRun c pre).trace.count Event.cancelToken ≤ 1
      ∧ (sysRun c (pre ++ [SysStep.manualCancel])).cancelled = true
      ∧ (sysRun c (pre ++ [SysStep.manualCancel])).trace.count Event.cancelToken = 1
      ∧ ((sysRun c pre).cancelled = true →
          (sysRun c (pre ++ more)).cancelled = true
          ∧ (sysRun c (pre ++ more)).trace.count Event.cancelToken
              = (sysRun c pre).trace.count Event.cancelToken) := by
  intro pre more
  obtain ⟨h1, h2, _, _, _⟩ := coordInv_run c pre
  refine ⟨?_, ?_, ?_, ?_⟩
  · cases hc : (sysRun c pre).cancelled with
    | true => exact (h2 hc).le
    | false => rw [(h1 hc).1]; exact Nat.zero_le 1
  · rw [sysRun_append]
    show (sysStep c (sysRun c pre) SysStep.manualCancel).cancelled = true
    cases hp : (sysRun c pre).phase with
    | exited =>
      simp only [sysStep, hp]
      cases hc : (sysRun c pre).cancelled with
      | true => rfl
      | false => exact WatcherPhase.noConfusion (hp.symm.trans (h1 hc).2)
    | waitingFirst => simp only [sysStep, hp]
    | racing => simp only [sysStep, hp]
    | done => simp only [sysStep, hp]
  · rw [sysRun_append]
    show (sysStep c (sysRun c pre) SysStep.manualCancel).trace.count Event.cancelToken = 1
    cases hp : (sysRun c pre).phase with
    | exited =>
      simp only [sysStep, hp]
      cases hc : (sysRun c pre).cancelled with
      | true => exact h2 hc
      | false => exact WatcherPhase.noConfusion (hp.symm.trans (h1 hc).2)
    | waitingFirst =>
      simp only [sysStep, hp]
      show ((sysRun c pre).trace ++ cancelEvents (sysRun c pre).cancelled).count
        Event.cancelToken = 1
      cases hc : (sysRun c pre).cancelled with
      | true => rw [List.count_append, h2 hc]; rfl
      | false => rw [List.count_append, (h1 hc).1]; rfl
    | racing =>
      simp only [sysStep, hp]
      show ((sysRun c pre).trace ++ cancelEvents (sysRun c pre).cancelled).count
        Event.cancelToken = 1
      cases hc : (sysRun c pre).cancelled with
      | true => rw [List.count_append, h2 hc]; rfl
      | false => rw [List.count_append, (h1 hc).1]; rfl
    | done =>
      simp only [sysStep, hp]
      show ((sysRun c pre).trace ++ cancelEvents (sysRun c pre).cancelled).count
        Event.cancelToken = 1
      cases hc : (sysRun c pre).cancelled with
      | true => rw [List.count_append, h2 hc]; rfl
      | false => rw [List.count_append, (h1 hc).1]; rfl
  · intro hc
    rw [sysRun_append]
    exact cancelled_mono_run more (sysRun c pre) hc

/-- Claim C9 (corrected): counterexample to the claim as stated.  A
negative duration handed to `WithTimeout` is accepted into the
configuration unchanged; nothing validates or rejects it. -/
theorem validation_counterexample :
    (applyOptions [WithTimeout (-5)]).timeout = -5
    ∧ (applyOptions [WithTimeout (-5)]).timeout < 0 := by decide

/-- Claim C9 (corrected, amended): construction performs no
non-negativity validation: the grace period supplied last through
`WithTimeout` is stored into the configuration unconditionally, negative
values included. -/
theorem withTimeout_stores_unconditionally (opts : List ShutdownOption) (t : Int) :
    (applyOptions (opts ++ [WithTimeout t])).timeout = t := by
  unfold applyOptions
  rw [List.foldl_append]
  rfl

/-- Claim C10 (confirmed): after the manual cancel (no prior signal) the
watcher remains subscribed to the signal channel: a configured signal
delivered afterwards still produces the warning log and the `onShutdown`
invocation, and with force exit enabled it arms the race, whose timer arm
then invokes `onForceExit` and the terminator with the configured exit
code. -/
theorem watcher_survives_manual_cancel (c : shutdownConfig) (s : Nat)
    (hs : s ∈ c.signals) (hfe : c.forceExit = true) :
    (sysRun c [SysStep.manualCancel, SysStep.deliverSignal s]).trace
      = [Event.cancelToken, Event.logReceivedSignal s, Event.onShutdown s]
    ∧ (sysRun c [SysStep.manualCancel, SysStep.deliverSignal s]).phase
        = WatcherPhase.racing
    ∧ (sysRun c [SysStep.manualCancel, SysStep.deliverSignal s, SysStep.timerFires]).trace
      = [Event.cancelToken, Event.logReceivedSignal s, Event.onShutdown s,
         Event.logForcedTimeout, Event.onForceExit, Event.osExit c.exitCode] := by
  refine ⟨?_, ?_, ?_⟩ <;>
    simp [sysRun, sysStep, initState, cancelEvents, signalArrivalEvents, forceExitEvents,
      hs, hfe]

/-- Concrete instance of C10: manual cancel, then SIGTERM, at the default
configuration. -/
theorem watcher_survives_manual_cancel_witness :
    (sysRun (applyOptions []) [SysStep.manualCancel, SysStep.deliverSignal 15]).trace
      = [Event.cancelToken, Event.logReceivedSignal 15, Event.onShutdown 15] :=
  (watcher_survives_manual_cancel (applyOptions []) 15 (by decide) (by decide)).1

end Ctrl
